import Mathlib

/-!
Shallow embedding of the `ohlc_project` repository (Flattrade market-data
dashboard) and verification of its specification claims.

Sources embedded:
- `flattrade_client.py` : `FlattradeClient.setup_session`, `search_stock`,
  `get_major_indices_info`, `get_ohlc_data` (the later, shadowing definition).
- `stock_data/services.py` : `MAJOR_INDICES`, `FlattradeService.setup_client`,
  `get_or_create_stock`, `_generate_company_name`, `get_ohlc_data`,
  `search_stocks`, `get_or_create_index`, `_generate_index_name`,
  `search_with_parallel_exchanges`.
- `stock_data/models.py` : row shapes and uniqueness constraints of `Stock`,
  `OHLCData`, `UserSession`, `Index`.

Machine-level conventions: Python strings are `String` restricted to ASCII
content (all literals in the sources are ASCII); the Django ORM is modelled as
explicit list-valued tables threaded through each operation, with `get_or_create`
honouring the declared `unique` / `unique_together` constraints (a uniqueness
violation on insert is the `IntegrityError` path, which every caller catches and
turns into `none`); external vendor responses are parameters of the functions
that consume them.  `Decimal(...)`/`int(...)` conversions of price fields are
value-preserving on the raw response strings and are modelled by storing the raw
field; claims never inspect price values.  `timezone.make_aware` is a
fixed-offset wrapper, injective on timestamps, modelled as the identity.
-/

/-! ### Python string primitives (ASCII) -/

/-- ASCII lower-casing of one character, as Python `str.lower` does on ASCII. -/
def asciiLower (c : Char) : Char :=
  if 'A' ≤ c && c ≤ 'Z' then Char.ofNat (c.toNat + 32) else c

/-- ASCII upper-casing of one character, as Python `str.upper` does on ASCII. -/
def asciiUpper (c : Char) : Char :=
  if 'a' ≤ c && c ≤ 'z' then Char.ofNat (c.toNat - 32) else c

/-- Python `s.lower()` (ASCII). -/
def pyLower (s : String) : String := String.mk (s.data.map asciiLower)

/-- Python `s.upper()` (ASCII). -/
def pyUpper (s : String) : String := String.mk (s.data.map asciiUpper)

/-- Python `needle in hay` on strings: contiguous-substring test. -/
def strContains (hay needle : String) : Bool :=
  (List.range (hay.data.length + 1)).any (fun i => needle.data.isPrefixOf (hay.data.drop i))

/-- Python `s.endswith(suffix)`. -/
def strEndsWith (s suffix : String) : Bool :=
  suffix.data.isSuffixOf s.data

/-- Python `str.replace` worker: replace every non-overlapping occurrence of
`pat` (nonempty in all call sites) left to right.  The fuel argument, set to
the input length, makes the recursion structural; with nonempty `pat` every
step consumes at least one character, so the fuel never runs out. -/
def pyReplaceAux (pat rep : List Char) : Nat → List Char → List Char
  | 0, l => l
  | _ + 1, [] => []
  | fuel + 1, c :: rest =>
    if pat ≠ [] && pat.isPrefixOf (c :: rest) then
      rep ++ pyReplaceAux pat rep fuel ((c :: rest).drop pat.length)
    else
      c :: pyReplaceAux pat rep fuel rest

/-- Python `s.replace(pat, rep)` (with nonempty `pat`, as in all call sites). -/
def pyReplace (s pat rep : String) : String :=
  String.mk (pyReplaceAux pat.data rep.data s.data.length s.data)

/-- Python `str.title()` on ASCII: upper-case every letter that follows a
non-letter, lower-case every letter that follows a letter. -/
def pyTitleAux : Bool → List Char → List Char
  | _, [] => []
  | prevAlpha, c :: rest =>
    let c' := if c.isAlpha then (if prevAlpha then asciiLower c else asciiUpper c) else c
    c' :: pyTitleAux c.isAlpha rest

/-- Python `s.title()` (ASCII). -/
def pyTitle (s : String) : String := String.mk (pyTitleAux false s.data)

/-! ### `datetime.strptime(ts, '%d-%m-%Y %H:%M:%S')`

CPython compiles the directives to the regexes `%d ↦ 3[01]|[12]\d|0[1-9]|[1-9]`,
`%m ↦ 1[0-2]|0[1-9]|[1-9]`, `%Y ↦ \d\d\d\d`, `%H ↦ 2[0-3]|[0-1]\d|\d`,
`%M,%S ↦ [0-5]\d|\d`, requires the whole string to match, and then `datetime`
validates the day against the month length and `1 ≤ year`. -/

/-- Split a character list at every occurrence of the separator `c`. -/
def splitOnChar (c : Char) : List Char → List (List Char)
  | [] => [[]]
  | x :: rest =>
    let r := splitOnChar c rest
    if x = c then [] :: r
    else
      match r with
      | [] => [[x]]
      | h :: t => (x :: h) :: t

/-- Numeric value of an all-digit character list; `none` otherwise. -/
def digitsToNat (l : List Char) : Option Nat :=
  if l ≠ [] && l.all (·.isDigit) then
    some (l.foldl (fun a c => a * 10 + (c.toNat - 48)) 0)
  else none

/-- Parse a 1-2 digit field with the value range `lo..hi` (matching the
1-or-2-digit strptime directive regexes above). -/
def parseField2 (l : List Char) (lo hi : Nat) : Option Nat :=
  match digitsToNat l with
  | some n => if l.length ≤ 2 && lo ≤ n && n ≤ hi then some n else none
  | none => none

/-- Parse the exactly-4-digit `%Y` field; `datetime` additionally requires a
year of at least 1. -/
def parseYear (l : List Char) : Option Nat :=
  match digitsToNat l with
  | some n => if l.length = 4 && 1 ≤ n then some n else none
  | none => none

/-- Gregorian leap-year rule used by `datetime`. -/
def isLeapYear (y : Nat) : Bool :=
  y % 4 = 0 && (y % 100 ≠ 0 || y % 400 = 0)

/-- Number of days in a month, as validated by the `datetime` constructor. -/
def daysInMonth (y m : Nat) : Nat :=
  if m = 2 then (if isLeapYear y then 29 else 28)
  else if m = 4 || m = 6 || m = 9 || m = 11 then 30
  else 31

/-- A parsed (naive, local-time) candle timestamp. -/
structure PyTimestamp where
  year : Nat
  month : Nat
  day : Nat
  hour : Nat
  minute : Nat
  second : Nat
deriving DecidableEq, Repr

/-- `datetime.strptime(s, '%d-%m-%Y %H:%M:%S')`, returning `none` exactly when
Python raises `ValueError`. -/
def parsePyTimestamp (s : String) : Option PyTimestamp :=
  match splitOnChar ' ' s.data with
  | [datePart, timePart] =>
    match splitOnChar '-' datePart, splitOnChar ':' timePart with
    | [ds, ms, ys], [hs, mins, secs] =>
      match parseField2 ds 1 31, parseField2 ms 1 12, parseYear ys,
            parseField2 hs 0 23, parseField2 mins 0 59, parseField2 secs 0 59 with
      | some d, some m, some y, some h, some mi, some sec =>
        if d ≤ daysInMonth y m then some ⟨y, m, d, h, mi, sec⟩ else none
      | _, _, _, _, _, _ => none
    | _, _ => none
  | _ => none

/-! ### Data model (`stock_data/models.py`)

`Stock`: `symbol` unique, `token` unique.  `Index`: `token` unique, `symbol`
NOT unique.  `OHLCData`: `unique_together = ['stock', 'timestamp', 'interval']`
(a stock is identified by its unique symbol).  `UserSession`: `user_id` unique. -/

/-- A `Stock` row. -/
structure StockRow where
  symbol : String
  token : String
  exchange : String
  companyName : String
deriving DecidableEq, Repr

/-- An `Index` row. -/
structure IndexRow where
  symbol : String
  token : String
  name : String
  exchange : String
  indexType : String
  isActive : Bool
deriving DecidableEq, Repr

/-- An `OHLCData` row; the owning stock is referenced by its unique symbol, and
the price/volume fields keep the raw vendor strings (see header note). -/
structure OHLCRow where
  stockSymbol : String
  timestamp : PyTimestamp
  interval : Nat
  openPrice : String
  highPrice : String
  lowPrice : String
  closePrice : String
  volume : String
deriving DecidableEq, Repr

/-- A `UserSession` row; `expiresAt` is in seconds on an absolute clock. -/
structure SessionRow where
  userId : String
  token : String
  isActive : Bool
  expiresAt : Nat
deriving DecidableEq, Repr

/-- The relational store. -/
structure DB where
  stocks : List StockRow
  indices : List IndexRow
  ohlc : List OHLCRow
  sessions : List SessionRow
deriving DecidableEq, Repr

/-- The empty store. -/
def emptyDB : DB := ⟨[], [], [], []⟩

/-! ### Static index table (`services.py`, `MAJOR_INDICES`) -/

/-- One value of the `MAJOR_INDICES` dict. -/
structure MajorIndexInfo where
  token : String
  name : String
  symbol : String
  exchange : String
deriving DecidableEq, Repr

/-- `MAJOR_INDICES`, in dict insertion order. -/
def MAJOR_INDICES : List (String × MajorIndexInfo) :=
  [ ("NIFTY_BANK",    ⟨"26009", "Nifty Bank",    "NIFTY_BANK",    "NSE"⟩)
  , ("NIFTY",         ⟨"26000", "Nifty 50",      "NIFTY",         "NSE"⟩)
  , ("NIFTY_NEXT_50", ⟨"26013", "Nifty Next 50", "NIFTY_NEXT_50", "NSE"⟩)
  , ("NIFTY_IT",      ⟨"26008", "Nifty IT",      "NIFTY_IT",      "NSE"⟩)
  , ("NIFTY_AUTO",    ⟨"26029", "Nifty Auto",    "NIFTY_AUTO",    "NSE"⟩)
  , ("NIFTY_FMCG",    ⟨"26021", "Nifty FMCG",    "NIFTY_FMCG",    "NSE"⟩)
  , ("NIFTY_PHARMA",  ⟨"26023", "Nifty Pharma",  "NIFTY_PHARMA",  "NSE"⟩)
  , ("NIFTY_REALTY",  ⟨"26018", "Nifty Realty",  "NIFTY_REALTY",  "NSE"⟩)
  , ("NIFTY_500",     ⟨"26004", "Nifty 500",     "NIFTY_500",     "NSE"⟩)
  , ("NIFTY_100",     ⟨"26012", "Nifty 100",     "NIFTY_100",     "NSE"⟩) ]

/-- Python `symbol in MAJOR_INDICES` / `MAJOR_INDICES[symbol]`. -/
def majorLookup (symbol : String) : Option MajorIndexInfo :=
  (MAJOR_INDICES.find? (fun p => p.1 == symbol)).map (·.2)

/-! ### `FlattradeService.get_or_create_stock` / `_generate_company_name` -/

/-- `FlattradeService._generate_company_name`. -/
def generateCompanyName (symbol exchange : String) : String :=
  if exchange == "NSE_INDEX" || exchange == "INDICES" then
    pyTitle (pyReplace (pyReplace symbol "-" " ") "_" " ")
  else
    pyTitle (pyReplace (pyReplace symbol "-EQ" "") "-" " ")

/-- `FlattradeService.get_or_create_stock`.  Skips `-BL` symbols; the
`search_exchange or exchange` expression treats `None` and the empty string as
falsy; `get_or_create` is keyed on the unique `symbol`, and an insert violating
the unique `token` constraint is the caught-`IntegrityError` path returning
`None`. -/
def getOrCreateStock (db : DB) (symbol token exchange : String)
    (searchExchange : Option String) : DB × Option StockRow :=
  if strEndsWith symbol "-BL" then (db, none)
  else
    let actualExchange :=
      match searchExchange with
      | some s => if s == "" then exchange else s
      | none => exchange
    match db.stocks.find? (fun st => st.symbol == symbol) with
    | some st => (db, some st)
    | none =>
      if db.stocks.any (fun st => st.token == token) then (db, none)
      else
        let row : StockRow :=
          ⟨symbol, token, actualExchange, generateCompanyName symbol actualExchange⟩
        ({ db with stocks := db.stocks ++ [row] }, some row)

/-! ### `FlattradeService.get_or_create_index` / `_generate_index_name` -/

/-- `FlattradeService._generate_index_name`. -/
def generateIndexName (symbol : String) : String :=
  let nameMapping : List (String × String) :=
    [ ("NIFTY", "Nifty 50"), ("NIFTY_BANK", "Nifty Bank")
    , ("NIFTY_NEXT_50", "Nifty Next 50"), ("NIFTY_100", "Nifty 100")
    , ("NIFTY_IT", "Nifty IT"), ("NIFTY_AUTO", "Nifty Auto")
    , ("NIFTY_FMCG", "Nifty FMCG"), ("NIFTY_PHARMA", "Nifty Pharma") ]
  match nameMapping.find? (fun p => p.1 == symbol) with
  | some p => p.2
  | none => pyTitle (pyReplace symbol "_" " ")

/-- `FlattradeService.get_or_create_index`.  For a symbol present in
`MAJOR_INDICES` the hardcoded token and name override the arguments;
`get_or_create` is keyed on `(symbol, token)`; creating a row whose token
collides with an existing index token is the caught-`IntegrityError` path
returning `None`.  There is no blacklist-suffix check on this path. -/
def getOrCreateIndex (db : DB) (symbol token0 : String) (name0 : Option String)
    (indexType : String) : DB × Option IndexRow :=
  let (token, name) :=
    match majorLookup symbol with
    | some info => (info.token, some info.name)
    | none => (token0, name0)
  match db.indices.find? (fun ix => ix.symbol == symbol && ix.token == token) with
  | some ix => (db, some ix)
  | none =>
    if db.indices.any (fun ix => ix.token == token) then (db, none)
    else
      let row : IndexRow :=
        ⟨symbol, token, (match name with | some n => n | none => generateIndexName symbol),
         "NSE", indexType, true⟩
      ({ db with indices := db.indices ++ [row] }, some row)

/-! ### Candle ingestion (`FlattradeService.get_ohlc_data`) -/

/-- One candle dict from the vendor's time-price series; `none` fields model
absent keys (`item.get(key, default)`). -/
structure CandleItem where
  time : Option String
  into : Option String
  inth : Option String
  intl : Option String
  intc : Option String
  v : Option String
deriving DecidableEq, Repr

/-- The vendor OHLC response dict consumed by the service:
`{stat: ..., data: [...]}`. -/
structure VendorOHLCResp where
  stat : Option String
  data : List CandleItem
deriving DecidableEq, Repr

/-- Existence test behind `OHLCData.objects.get_or_create(stock=..,
timestamp=.., interval=..)`: is there already a row for this
`unique_together` key?  (The pre-existing row itself is never used by the
caller, which only appends newly created rows.) -/
def ohlcExists (rows : List OHLCRow) (sym : String) (ts : PyTimestamp) (iv : Nat) : Bool :=
  rows.any (fun r => r.stockSymbol == sym && r.timestamp == ts && r.interval == iv)

/-- The ingestion loop of `FlattradeService.get_ohlc_data`: for each item,
parse `item.get('time', '')` with strptime (skipping unparseable entries),
then `get_or_create` on `(stock, timestamp, interval)`; returns the updated
OHLC table and the list of newly created rows, in order. -/
def ingestCandles (rows : List OHLCRow) (sym : String) (iv : Nat) :
    List CandleItem → List OHLCRow × List OHLCRow
  | [] => (rows, [])
  | item :: rest =>
    match parsePyTimestamp (item.time.getD "") with
    | none => ingestCandles rows sym iv rest
    | some ts =>
      if ohlcExists rows sym ts iv then ingestCandles rows sym iv rest
      else
        let row : OHLCRow :=
          ⟨sym, ts, iv, item.into.getD "0", item.inth.getD "0", item.intl.getD "0",
           item.intc.getD "0", item.v.getD "0"⟩
        let r := ingestCandles (rows ++ [row]) sym iv rest
        (r.1, row :: r.2)

/-- `FlattradeService.get_ohlc_data(symbol, interval, days)`.

`connected` abstracts `self.client.is_connected` after the reconnect attempt
(`False` is the `setup_client()`-failed early return).  The stock is looked up
by its unique symbol (`Stock.objects.get(symbol=symbol)`; `DoesNotExist`
returns `None`).  `resp` is what `self.client.get_ohlc_data(...)` returned;
anything other than a dict with `stat == 'Ok'` is the logged error path
returning `None`. -/
def serviceGetOhlcData (connected : Bool) (db : DB) (symbol : String) (iv : Nat)
    (resp : Option VendorOHLCResp) : DB × Option (List OHLCRow) :=
  if !connected then (db, none)
  else
    match db.stocks.find? (fun st => st.symbol == symbol) with
    | none => (db, none)
    | some st =>
      match resp with
      | none => (db, none)
      | some r =>
        if r.stat == some "Ok" then
          let res := ingestCandles db.ohlc st.symbol iv r.data
          ({ db with ohlc := res.1 }, some res.2)
        else (db, none)

/-- The persisted candle rows for a given `(stock, interval)` pair. -/
def rowsForL (rows : List OHLCRow) (sym : String) (iv : Nat) : List OHLCRow :=
  rows.filter (fun r => r.stockSymbol == sym && r.interval == iv)

/-- The persisted candle rows of a store for a given `(stock, interval)`. -/
def rowsFor (db : DB) (sym : String) (iv : Nat) : List OHLCRow :=
  rowsForL db.ohlc sym iv

/-- The parseable candle timestamps of a fetched batch, in order. -/
def parsedTimes (items : List CandleItem) : List PyTimestamp :=
  items.filterMap (fun it => parsePyTimestamp (it.time.getD ""))

/-- Two successive ingestion calls for the same `(stock, interval)`:
returns the final store and the two per-call return values. -/
def ingestTwice (db0 : DB) (sym : String) (iv : Nat)
    (items1 items2 : List CandleItem) :
    DB × Option (List OHLCRow) × Option (List OHLCRow) :=
  let r1 := serviceGetOhlcData true db0 sym iv (some ⟨some "Ok", items1⟩)
  let r2 := serviceGetOhlcData true r1.1 sym iv (some ⟨some "Ok", items2⟩)
  (r2.1, r1.2, r2.2)

/-! ### `FlattradeClient.setup_session` (`flattrade_client.py`) -/

/-- The value returned by the vendor SDK's `set_session`: a dict (with
optional `stat` / `emsg` / `userid` keys), a bare boolean, or `None`. -/
inductive PyRet
  | dictV (stat emsg userid : Option String)
  | boolV (b : Bool)
  | noneV
deriving DecidableEq, Repr

/-- `FlattradeClient.setup_session`.  The argument is the SDK call's outcome
(`Except.error` = it raised).  Returns the new `is_connected` flag and the
method's return value (`none` = Python `None`).  A dict with `stat == 'Ok'`
connects; the literal `True` connects and is normalised to
`{'stat': 'Ok', 'userid': ...}`; everything else (failure dict, other value,
exception) leaves the client disconnected. -/
def setupSession (userid : String) (ret : Except Unit PyRet) : Bool × Option PyRet :=
  match ret with
  | .error _ => (false, none)
  | .ok r =>
    match r with
    | .dictV stat emsg uid =>
      if stat == some "Ok" then (true, some (.dictV stat emsg uid))
      else (false, some (.dictV stat emsg uid))
    | .boolV b =>
      if b then (true, some (.dictV (some "Ok") none (some userid)))
      else (false, some (.boolV b))
    | .noneV => (false, some .noneV)

/-! ### `FlattradeService.setup_client` session bookkeeping (`services.py`) -/

/-- Update the first list element satisfying `p` (the Django `.save()` on the
single row matched by the unique `user_id` filter). -/
def replaceFirst (p : SessionRow → Bool) (f : SessionRow → SessionRow) :
    List SessionRow → List SessionRow
  | [] => []
  | s :: rest => if p s then f s :: rest else s :: replaceFirst p f rest

/-- The session-table effect of `FlattradeService.setup_client`.  `authOk`
abstracts `self.client.is_connected` after `setup_session()` (`false` also
covers a raised exception, which the method catches; both leave the table
untouched and return `False`).  On success, `UserSession.objects.get_or_create`
keyed on the unique `user_id` either creates a row or refreshes the existing
one with the fresh token, `is_active = True` and an expiry 8 hours from now
(times in seconds). -/
def setupClient (sessions : List SessionRow) (userId token : String) (authOk : Bool)
    (now : Nat) : List SessionRow × Bool :=
  if authOk then
    match sessions.find? (fun s => s.userId == userId) with
    | some _ =>
      (replaceFirst (fun s => s.userId == userId)
        (fun s => { s with token := token, isActive := true, expiresAt := now + 8 * 3600 })
        sessions, true)
    | none => (sessions ++ [⟨userId, token, true, now + 8 * 3600⟩], true)
  else (sessions, false)

/-! ### Instrument search (`FlattradeService.search_stocks` and helpers) -/

/-- One vendor search-result dict; `none` fields model absent keys. -/
structure SearchItem where
  tsym : Option String
  token : Option String
  searchExchange : Option String
  instname : Option String
  cname : Option String
deriving DecidableEq, Repr

/-- The vendor search response dict `{stat: ..., values: [...], emsg: ...}`;
a missing `values` key is the empty list (consumers use `.get('values', ...)`). -/
structure SearchResp where
  stat : Option String
  values : List SearchItem
  emsg : Option String
deriving DecidableEq, Repr

/-- A resolution result: a `Stock` or an `Index` row (both carry a `token`
attribute, so `hasattr(r, 'token')` is always true in the dedup check). -/
inductive Inst
  | stockI (s : StockRow)
  | indexI (ix : IndexRow)
deriving DecidableEq, Repr

/-- The `token` attribute of a resolution result. -/
def instToken : Inst → String
  | .stockI s => s.token
  | .indexI ix => ix.token

/-- Step 1 of `search_stocks`, one `MAJOR_INDICES` entry: case-insensitive
substring match of the query against the symbol or the display name; a match
is resolved through `get_or_create_index` and appended when that succeeds. -/
def staticStep (query : String) (acc : DB × List Inst) (entry : String × MajorIndexInfo) :
    DB × List Inst :=
  if strContains (pyLower entry.1) (pyLower query) ||
      strContains (pyLower entry.2.name) (pyLower query) then
    match getOrCreateIndex acc.1 entry.1 entry.2.token (some entry.2.name) "EQUITY" with
    | (db2, some ix) => (db2, acc.2 ++ [.indexI ix])
    | (db2, none) => (db2, acc.2)
  else acc

/-- Step 1 of `search_stocks`: the hardcoded-index loop over `MAJOR_INDICES`
in dict order. -/
def staticMatches (db : DB) (query : String) : DB × List Inst :=
  MAJOR_INDICES.foldl (staticStep query) (db, [])

/-- The body of the `search_stocks` per-item loop: skip items without symbol
or token; skip an item whose token already appears among the collected
results (`hasattr(r, 'token') and r.token == token`); classify as an index
when `instname == 'UNDIND'` or the upper-cased symbol contains `'NIFTY'`,
else as a stock; append on successful get-or-create. -/
def processSearchItem (acc : DB × List Inst) (item : SearchItem) : DB × List Inst :=
  let symbol := item.tsym.getD ""
  let token := item.token.getD ""
  let searchExchange := item.searchExchange.getD "NSE"
  let instname := item.instname.getD ""
  if symbol ≠ "" && token ≠ "" then
    if acc.2.any (fun r => instToken r == token) then acc
    else if instname == "UNDIND" || strContains (pyUpper symbol) "NIFTY" then
      match getOrCreateIndex acc.1 symbol token (some (item.cname.getD symbol)) "EQUITY" with
      | (db2, some ix) => (db2, acc.2 ++ [.indexI ix])
      | (db2, none) => (db2, acc.2)
    else
      match getOrCreateStock acc.1 symbol token "NSE" (some searchExchange) with
      | (db2, some st) => (db2, acc.2 ++ [.stockI st])
      | (db2, none) => (db2, acc.2)
  else acc

/-- The outcome of the `self.client.search_stock(search_text)` call:
it raised, or it returned a value (`none` = Python `None`). -/
inductive LiveSearchOutcome
  | raised
  | returned (r : Option SearchResp)
deriving DecidableEq, Repr

/-- `FlattradeService.search_stocks`.  `connected` abstracts the client state
after the reconnect attempt (`false` = `setup_client()` failed, early `[]`).
Step 1 persists the matching hardcoded indices; the live-search call then
either raises — caught by the method's `except`, which returns `[]`, keeping
step 1's store writes — or returns a value.  Only a dict with `stat == 'Ok'`
reaches the item loop and the `return results`; any other value falls off the
end of the `try` block, so the method implicitly returns `None`. -/
def searchStocksService (connected : Bool) (db : DB) (query : String)
    (live : LiveSearchOutcome) : DB × Option (List Inst) :=
  if !connected then (db, some [])
  else
    let s := staticMatches db query
    match live with
    | .raised => (s.1, some [])
    | .returned r =>
      match r with
      | some resp =>
        if resp.stat == some "Ok" then
          let out := resp.values.foldl processSearchItem s
          (out.1, some out.2)
        else (s.1, none)
      | none => (s.1, none)

/-! ### `FlattradeService.search_with_parallel_exchanges` -/

/-- The method names defined on `FlattradeService` in `services.py`. -/
def flattradeServiceMethods : List String :=
  [ "__init__", "setup_client", "get_or_create_stock", "_generate_company_name"
  , "get_live_quote", "get_ohlc_data", "search_stocks", "get_popular_stocks"
  , "get_or_create_index", "_generate_index_name", "get_index_by_symbol"
  , "validate_major_indices_tokens", "get_index_quote", "get_index_ohlc_data"
  , "search_with_parallel_exchanges" ]

/-- Python attribute lookup `self.<name>` on the service: an undefined name
raises `AttributeError`. -/
def getattrService (name : String) : Except String Unit :=
  if flattradeServiceMethods.contains name then .ok () else .error "AttributeError"

/-- The per-item conversion loop of `search_with_parallel_exchanges` (its
classification differs from `search_stocks`: `instname == 'INDEX'` or a
case-sensitive `'NIFTY' in symbol`, and no token-dedup check). -/
def parallelConvertStep (acc : DB × List Inst) (item : SearchItem) : DB × List Inst :=
  let symbol := item.tsym.getD ""
  let token := item.token.getD ""
  let searchExchange := item.searchExchange.getD "NSE"
  let instname := item.instname.getD ""
  if symbol ≠ "" && token ≠ "" then
    if instname == "INDEX" || strContains symbol "NIFTY" then
      match getOrCreateIndex acc.1 symbol token (some (item.cname.getD symbol)) "EQUITY" with
      | (db2, some ix) => (db2, acc.2 ++ [.indexI ix])
      | (db2, none) => (db2, acc.2)
    else
      match getOrCreateStock acc.1 symbol token "NSE" (some searchExchange) with
      | (db2, some st) => (db2, acc.2 ++ [.stockI st])
      | (db2, none) => (db2, acc.2)
  else acc

/-- The `try` body of `search_with_parallel_exchanges`.  Submitting the
workers evaluates `self._search_single_exchange`, a method not defined
anywhere in the repository, so the attribute lookup raises before any worker
runs; the rest of the body (worker gathering in completion order — immaterial
here — optional `self._discover_indices`, also undefined, and the conversion
loop) is transliterated after it.  `workerResults` abstracts the per-exchange
worker outputs, `disc` the index-discovery output. -/
def parallelSearchBody (db : DB) (query : String)
    (workerResults : String → List SearchItem) (disc : List SearchItem) :
    Except String (DB × List Inst) := do
  let _ ← getattrService "_search_single_exchange"
  let gathered := (["NSE", "BSE", "NFO", "CDS", "MCX"].map workerResults).flatten
  let withDisc ←
    if strContains (pyLower query) "nifty" then do
      let _ ← getattrService "_discover_indices"
      pure (gathered ++ disc)
    else pure gathered
  let out := withDisc.foldl parallelConvertStep (db, [])
  pure out

/-- `FlattradeService.search_with_parallel_exchanges`: the `try` body under
the enclosing `except`, which logs and returns `[]`. -/
def searchWithParallelExchanges (connected : Bool) (db : DB) (query : String)
    (workerResults : String → List SearchItem) (disc : List SearchItem) :
    DB × List Inst :=
  if !connected then (db, [])
  else
    match parallelSearchBody db query workerResults disc with
    | .ok r => r
    | .error _ => (db, [])

/-! ### `FlattradeClient.search_stock` (sequential multi-exchange fan-out) -/

/-- Outcome of one `api.searchscrip(exchange=e, searchtext=q)` call: raised,
returned `None`, or returned a dict with optional `stat`/`values` keys. -/
inductive ExchOutcome
  | raised
  | retNone
  | ret (stat : Option String) (values : Option (List SearchItem))
deriving Repr

/-- What one exchange contributes to `all_results`: its `values`, each tagged
with `search_exchange`, provided the call returned a truthy dict with
`stat == 'Ok'` and a truthy (nonempty) `values`; a raised call is caught and
contributes nothing. -/
def exchangeContribution (e : String) (o : ExchOutcome) : List SearchItem :=
  match o with
  | .ret stat (some vs) =>
    if stat == some "Ok" && !vs.isEmpty then
      vs.map (fun it => { it with searchExchange := some e })
    else []
  | _ => []

/-- The sequential per-exchange loop of `search_stock` (the `except` around
each iteration makes a failure `continue` to the next exchange). -/
def gatherExchanges (outcomes : String → ExchOutcome) : List String → List SearchItem
  | [] => []
  | e :: rest => exchangeContribution e (outcomes e) ++ gatherExchanges outcomes rest

/-- The token/symbol pairs probed by `get_major_indices_info`. -/
def majorIndicesTokens : List (String × String) :=
  [ ("26000", "NIFTY"), ("99926000", "NIFTY")
  , ("26001", "NIFTY BANK"), ("99926001", "NIFTY BANK") ]

/-- `FlattradeClient.get_major_indices_info`: probe each known token with a
quote call (`quoteOk` = the call returned a truthy dict with `stat == 'Ok'`;
`false` also covers a raised call, caught by the per-token `except`) and
collect a synthetic `INDEX` search item for each valid one. -/
def discoverMajor (quoteOk : String → Bool) : List SearchItem :=
  majorIndicesTokens.foldl
    (fun acc p =>
      if quoteOk p.1 then
        acc ++ [⟨some p.2, some p.1, some "NSE", some "INDEX", some (p.2 ++ " Index")⟩]
      else acc) []

/-- `FlattradeClient.search_stock`: gather the five exchanges in order, add
discovered major indices when the lower-cased query contains `'nifty'`, and
wrap the combined list as an `Ok` response, or a `Not_Ok`/`emsg` response
when nothing was found (`none` = the not-connected early `None` return). -/
def clientSearchStock (connected : Bool) (query : String)
    (outcomes : String → ExchOutcome) (quoteOk : String → Bool) : Option SearchResp :=
  if !connected then none
  else
    let allResults := gatherExchanges outcomes ["NSE", "BSE", "NFO", "CDS", "MCX"]
    let allResults :=
      if strContains (pyLower query) "nifty" then allResults ++ discoverMajor quoteOk
      else allResults
    if !allResults.isEmpty then some ⟨some "Ok", allResults, none⟩
    else some ⟨some "Not_Ok", [], some ("No results found for " ++ query)⟩

/-- The combined result set of a search response (`.get('values', [])`). -/
def respValues (r : Option SearchResp) : List SearchItem :=
  match r with
  | some resp => resp.values
  | none => []

/-! ### `FlattradeClient.get_ohlc_data` start-time computation -/

/-- A Python `datetime` value, split as a day number (on an absolute day
count, any calendar) and the seconds elapsed within that day. -/
structure PyDateTime where
  dayNumber : Int
  secondsInDay : Int
deriving DecidableEq, Repr

/-- `datetime.timedelta(days=n)` subtraction: whole-day shifts keep the time
of day. -/
def pySubDays (t : PyDateTime) (n : Int) : PyDateTime :=
  { t with dayNumber := t.dayNumber - n }

/-- `.replace(hour=0, minute=0, second=0, microsecond=0)`. -/
def pyReplaceMidnight (t : PyDateTime) : PyDateTime :=
  { t with secondsInDay := 0 }

/-- The midnight that starts the day of `t`. -/
def midnightOf (t : PyDateTime) : PyDateTime := ⟨t.dayNumber, 0⟩

/-- `datetime.timestamp()` in seconds (fixed local offset dropped: it cancels
in every comparison made here). -/
def timestampOf (t : PyDateTime) : Int :=
  t.dayNumber * 86400 + t.secondsInDay

/-- The `start_date` computed by `FlattradeClient.get_ohlc_data(token,
exchange, interval, days)` and passed to `get_time_price_series`:
`datetime.today() - timedelta(days=days-1)`, then truncated to midnight.
`none` is the not-connected early return. -/
def clientOhlcStartDate (connected : Bool) (today : PyDateTime) (days : Int) :
    Option PyDateTime :=
  if !connected then none
  else some (pyReplaceMidnight (pySubDays today (days - 1)))

/-- Concrete store for the C1 witness: one stock, no candles. -/
def w1DB : DB := ⟨[⟨"RELIANCE-EQ", "2885", "NSE", "Reliance"⟩], [], [], []⟩

/-- First fetched batch for the C1 witness. -/
def w1Items1 : List CandleItem :=
  [⟨some "01-01-2024 09:15:00", some "100", some "101", some "99", some "100.5", some "10"⟩]

/-- Second, overlapping fetched batch for the C1 witness. -/
def w1Items2 : List CandleItem :=
  [⟨some "01-01-2024 09:15:00", some "100", some "101", some "99", some "100.5", some "10"⟩,
   ⟨some "01-01-2024 09:20:00", some "100.5", some "102", some "100", some "101", some "12"⟩]


/-! ### Evaluation checks -/

example : parsePyTimestamp "01-01-2024 09:15:00" =
    some ⟨2024, 1, 1, 9, 15, 0⟩ := by decide

example : parsePyTimestamp "not-a-date" = none := by decide

example : parsePyTimestamp "29-02-2023 10:00:00" = none := by decide

example : parsePyTimestamp "29-02-2024 10:00:00" =
    some ⟨2024, 2, 29, 10, 0, 0⟩ := by decide

example :
    ((getOrCreateIndex emptyDB "FOO" "1" none "EQUITY").1.indices.map (·.name)) =
      ["Foo"] := by decide

example :
    (getOrCreateStock emptyDB "RELIANCE-EQ" "2885" "NSE" none).2 =
      some ⟨"RELIANCE-EQ", "2885", "NSE", "Reliance"⟩ := by decide


/-! ### Ingestion lemmas -/

lemma ohlcExists_iff (rows : List OHLCRow) (sym : String) (ts : PyTimestamp) (iv : Nat) :
    ohlcExists rows sym ts iv = true ↔
      ts ∈ (rowsForL rows sym iv).map (·.timestamp) := by
  simp only [ohlcExists, rowsForL, List.any_eq_true, List.mem_map, List.mem_filter,
    Bool.and_eq_true, beq_iff_eq]
  aesop

lemma ohlcExists_append (rows rows2 : List OHLCRow) (sym : String) (ts : PyTimestamp)
    (iv : Nat) :
    ohlcExists (rows ++ rows2) sym ts iv =
      (ohlcExists rows sym ts iv || ohlcExists rows2 sym ts iv) := by
  simp [ohlcExists, List.any_append]

lemma ingestCandles_fst (sym : String) (iv : Nat) (items : List CandleItem) :
    ∀ rows : List OHLCRow,
      (ingestCandles rows sym iv items).1 = rows ++ (ingestCandles rows sym iv items).2 := by
  induction items with
  | nil => intro rows; simp [ingestCandles]
  | cons item rest ih =>
    intro rows
    cases hp : parsePyTimestamp (item.time.getD "") with
    | none => simp only [ingestCandles, hp]; exact ih rows
    | some ts =>
      cases h : ohlcExists rows sym ts iv with
      | true => simp [ingestCandles, hp, h, ih]
      | false => simp [ingestCandles, hp, h, ih, List.append_assoc]

lemma ingestCandles_fields (sym : String) (iv : Nat) (items : List CandleItem) :
    ∀ rows : List OHLCRow, ∀ r ∈ (ingestCandles rows sym iv items).2,
      r.stockSymbol = sym ∧ r.interval = iv := by
  induction items with
  | nil => intro rows r hr; simp [ingestCandles] at hr
  | cons item rest ih =>
    intro rows r hr
    cases hp : parsePyTimestamp (item.time.getD "") with
    | none =>
      simp only [ingestCandles, hp] at hr
      exact ih rows r hr
    | some ts =>
      cases h : ohlcExists rows sym ts iv with
      | true =>
        simp only [ingestCandles, hp, h, if_true] at hr
        exact ih rows r hr
      | false =>
        simp only [ingestCandles, hp, h, Bool.false_eq_true, if_false, List.mem_cons] at hr
        rcases hr with hr | hr
        · subst hr; exact ⟨rfl, rfl⟩
        · exact ih _ r hr

lemma ingestCandles_mem (sym : String) (iv : Nat) (items : List CandleItem) :
    ∀ (rows : List OHLCRow) (ts : PyTimestamp),
      ts ∈ (ingestCandles rows sym iv items).2.map (·.timestamp) ↔
        (ts ∈ parsedTimes items ∧ ohlcExists rows sym ts iv = false) := by
  induction items with
  | nil => intro rows ts; simp [ingestCandles, parsedTimes]
  | cons item rest ih =>
    intro rows ts
    cases hp : parsePyTimestamp (item.time.getD "") with
    | none =>
      simp only [ingestCandles, hp, parsedTimes, List.filterMap_cons]
      exact ih rows ts
    | some ts0 =>
      cases h : ohlcExists rows sym ts0 iv with
      | true =>
        simp only [ingestCandles, hp, h, if_true, parsedTimes, List.filterMap_cons,
          List.mem_cons]
        rw [ih rows ts]
        simp only [parsedTimes]
        constructor
        · rintro ⟨h1, h2⟩; exact ⟨Or.inr h1, h2⟩
        · rintro ⟨h1 | h1, h2⟩
          · subst h1; rw [h] at h2; cases h2
          · exact ⟨h1, h2⟩
      | false =>
        simp only [ingestCandles, hp, h, Bool.false_eq_true, if_false, parsedTimes,
          List.filterMap_cons, List.map_cons, List.mem_cons]
        rw [ih _ ts]
        rw [ohlcExists_append]
        have hrow : ohlcExists
            [⟨sym, ts0, iv, item.into.getD "0", item.inth.getD "0", item.intl.getD "0",
              item.intc.getD "0", item.v.getD "0"⟩] sym ts iv = (ts0 == ts) := by
          simp [ohlcExists]
        rw [hrow]
        simp only [parsedTimes, Bool.or_eq_false_iff, beq_eq_false_iff_ne, ne_eq]
        constructor
        · rintro (rfl | ⟨h1, h2, h3⟩)
          · exact ⟨Or.inl rfl, h⟩
          · exact ⟨Or.inr h1, h2⟩
        · rintro ⟨h1 | h1, h2⟩
          · exact Or.inl h1
          · by_cases hts : ts0 = ts
            · exact Or.inl hts.symm
            · exact Or.inr ⟨h1, h2, hts⟩

lemma ingestCandles_nodup (sym : String) (iv : Nat) (items : List CandleItem) :
    ∀ rows : List OHLCRow,
      ((ingestCandles rows sym iv items).2.map (·.timestamp)).Nodup := by
  induction items with
  | nil => intro rows; simp [ingestCandles]
  | cons item rest ih =>
    intro rows
    cases hp : parsePyTimestamp (item.time.getD "") with
    | none => simp only [ingestCandles, hp]; exact ih rows
    | some ts0 =>
      cases h : ohlcExists rows sym ts0 iv with
      | true => simp only [ingestCandles, hp, h, if_true]; exact ih rows
      | false =>
        simp only [ingestCandles, hp, h, Bool.false_eq_true, if_false, List.map_cons,
          List.nodup_cons]
        refine ⟨?_, ih _⟩
        intro hmem
        rw [ingestCandles_mem] at hmem
        rcases hmem with ⟨-, hex⟩
        rw [ohlcExists_append] at hex
        simp [ohlcExists] at hex

lemma rowsForL_append_created (rows created : List OHLCRow) (sym : String) (iv : Nat)
    (h : ∀ r ∈ created, r.stockSymbol = sym ∧ r.interval = iv) :
    rowsForL (rows ++ created) sym iv = rowsForL rows sym iv ++ created := by
  simp only [rowsForL, List.filter_append]
  congr 1
  rw [List.filter_eq_self]
  intro r hr
  rcases h r hr with ⟨h1, h2⟩
  simp [h1, h2]

lemma bool_false_iff_not (b : Bool) (P : Prop) (h : b = true ↔ P) : b = false ↔ ¬ P := by
  cases b <;> simp_all

/-- C1.  Candle ingestion is idempotent: starting from a store holding the
requested stock but no OHLC rows for `(stock, interval)`, two
`get_ohlc_data` calls over arbitrary (e.g. overlapping) candle batches leave
exactly one row per distinct parseable timestamp of the two batches — the
total row count for `(stock, interval)` equals the number of distinct
timestamps across both batches, with no duplicate rows — and each call
returns precisely the rows it newly created (the second call returns the
timestamps of batch two not already present from batch one), not the total
fetched. -/
theorem ohlc_ingestion_idempotent (db0 : DB) (sym : String) (iv : Nat)
    (items1 items2 : List CandleItem)
    (hstock : (db0.stocks.find? (fun st => st.symbol == sym)).isSome = true)
    (hempty : rowsFor db0 sym iv = []) :
    ∃ l1 l2,
      (ingestTwice db0 sym iv items1 items2).2.1 = some l1 ∧
      (ingestTwice db0 sym iv items1 items2).2.2 = some l2 ∧
      rowsFor (ingestTwice db0 sym iv items1 items2).1 sym iv = l1 ++ l2 ∧
      (((l1 ++ l2).map (·.timestamp)).Nodup) ∧
      ((l1 ++ l2).map (·.timestamp)).toFinset =
        (parsedTimes items1).toFinset ∪ (parsedTimes items2).toFinset ∧
      (rowsFor (ingestTwice db0 sym iv items1 items2).1 sym iv).length =
        ((parsedTimes items1).toFinset ∪ (parsedTimes items2).toFinset).card ∧
      (l1.map (·.timestamp)).toFinset = (parsedTimes items1).toFinset ∧
      (l2.map (·.timestamp)).toFinset =
        (parsedTimes items2).toFinset \ (parsedTimes items1).toFinset := by
  obtain ⟨st, hst⟩ := Option.isSome_iff_exists.mp hstock
  have hsym : st.symbol = sym := by
    have hfs := List.find?_some hst
    simpa [beq_iff_eq] using hfs
  have hempty' : rowsForL db0.ohlc sym iv = [] := hempty
  set c1 : List OHLCRow := (ingestCandles db0.ohlc sym iv items1).2 with hc1
  set c2 : List OHLCRow := (ingestCandles (db0.ohlc ++ c1) sym iv items2).2 with hc2
  have h1 : serviceGetOhlcData true db0 sym iv (some ⟨some "Ok", items1⟩) =
      ({db0 with ohlc := db0.ohlc ++ c1}, some c1) := by
    simp only [serviceGetOhlcData, Bool.not_true, Bool.false_eq_true, if_false, hst, hsym]
    rw [hc1, ingestCandles_fst]
    simp
  have h2 : serviceGetOhlcData true {db0 with ohlc := db0.ohlc ++ c1} sym iv
      (some ⟨some "Ok", items2⟩) =
      ({db0 with ohlc := (db0.ohlc ++ c1) ++ c2}, some c2) := by
    simp only [serviceGetOhlcData, Bool.not_true, Bool.false_eq_true, if_false, hst, hsym]
    rw [hc2, ingestCandles_fst]
    simp
  have hT : ingestTwice db0 sym iv items1 items2 =
      ({db0 with ohlc := (db0.ohlc ++ c1) ++ c2}, some c1, some c2) := by
    simp only [ingestTwice, h1, h2]
  have hfields1 : ∀ r ∈ c1, r.stockSymbol = sym ∧ r.interval = iv := by
    rw [hc1]; exact ingestCandles_fields sym iv items1 db0.ohlc
  have hfields2 : ∀ r ∈ c2, r.stockSymbol = sym ∧ r.interval = iv := by
    rw [hc2]; exact ingestCandles_fields sym iv items2 (db0.ohlc ++ c1)
  have hrows : rowsForL ((db0.ohlc ++ c1) ++ c2) sym iv = c1 ++ c2 := by
    rw [rowsForL_append_created _ _ _ _ hfields2,
        rowsForL_append_created _ _ _ _ hfields1, hempty']
    simp
  have ea : ∀ ts, ohlcExists db0.ohlc sym ts iv = false := by
    intro ts
    cases hb : ohlcExists db0.ohlc sym ts iv with
    | false => rfl
    | true =>
      exfalso
      rw [ohlcExists_iff, hempty'] at hb
      simp at hb
  have hm1 : ∀ ts, ts ∈ c1.map (·.timestamp) ↔ ts ∈ parsedTimes items1 := by
    intro ts
    rw [hc1, ingestCandles_mem]
    simp [ea ts]
  have hrc1 : rowsForL c1 sym iv = c1 := by
    rw [rowsForL, List.filter_eq_self]
    intro r hr
    rcases hfields1 r hr with ⟨hf1, hf2⟩
    simp [hf1, hf2]
  have hex1 : ∀ ts, ohlcExists (db0.ohlc ++ c1) sym ts iv = true ↔
      ts ∈ parsedTimes items1 := by
    intro ts
    rw [ohlcExists_append, ea ts, Bool.false_or, ohlcExists_iff, hrc1]
    exact hm1 ts
  have hm2 : ∀ ts, ts ∈ c2.map (·.timestamp) ↔
      (ts ∈ parsedTimes items2 ∧ ts ∉ parsedTimes items1) := by
    intro ts
    rw [hc2, ingestCandles_mem]
    rw [bool_false_iff_not _ _ (hex1 ts)]
  have hnd1 : (c1.map (·.timestamp)).Nodup := by
    rw [hc1]; exact ingestCandles_nodup sym iv items1 db0.ohlc
  have hnd2 : (c2.map (·.timestamp)).Nodup := by
    rw [hc2]; exact ingestCandles_nodup sym iv items2 (db0.ohlc ++ c1)
  have hnd : ((c1 ++ c2).map (·.timestamp)).Nodup := by
    rw [List.map_append]
    refine List.Nodup.append hnd1 hnd2 ?_
    intro ts hts1 hts2
    rw [hm1] at hts1
    rw [hm2] at hts2
    exact hts2.2 hts1
  have hfin : ((c1 ++ c2).map (·.timestamp)).toFinset =
      (parsedTimes items1).toFinset ∪ (parsedTimes items2).toFinset := by
    ext t
    simp only [List.mem_toFinset, List.map_append, List.mem_append, Finset.mem_union,
      hm1 t, hm2 t]
    tauto
  refine ⟨c1, c2, ?_, ?_, ?_, hnd, hfin, ?_, ?_, ?_⟩
  · rw [hT]
  · rw [hT]
  · rw [hT]
    simp only [rowsFor]
    exact hrows
  · rw [hT]
    simp only [rowsFor]
    rw [hrows, ← hfin]
    rw [List.toFinset_card_of_nodup hnd, List.length_map]
  · ext t
    simp only [List.mem_toFinset, hm1 t]
  · ext t
    simp only [List.mem_toFinset, Finset.mem_sdiff, hm2 t]

/-- Witness for C1 at a concrete store and two overlapping one/two-candle
batches. -/
theorem ohlc_ingestion_idempotent_witness :
    ((w1DB.stocks.find? (fun st => st.symbol == "RELIANCE-EQ")).isSome = true) ∧
    (rowsFor w1DB "RELIANCE-EQ" 5 = []) ∧
    (∃ l1 l2,
      (ingestTwice w1DB "RELIANCE-EQ" 5 w1Items1 w1Items2).2.1 = some l1 ∧
      (ingestTwice w1DB "RELIANCE-EQ" 5 w1Items1 w1Items2).2.2 = some l2 ∧
      rowsFor (ingestTwice w1DB "RELIANCE-EQ" 5 w1Items1 w1Items2).1 "RELIANCE-EQ" 5 =
        l1 ++ l2 ∧
      (((l1 ++ l2).map (·.timestamp)).Nodup) ∧
      ((l1 ++ l2).map (·.timestamp)).toFinset =
        (parsedTimes w1Items1).toFinset ∪ (parsedTimes w1Items2).toFinset ∧
      (rowsFor (ingestTwice w1DB "RELIANCE-EQ" 5 w1Items1 w1Items2).1 "RELIANCE-EQ" 5).length =
        ((parsedTimes w1Items1).toFinset ∪ (parsedTimes w1Items2).toFinset).card ∧
      (l1.map (·.timestamp)).toFinset = (parsedTimes w1Items1).toFinset ∧
      (l2.map (·.timestamp)).toFinset =
        (parsedTimes w1Items2).toFinset \ (parsedTimes w1Items1).toFinset) :=
  ⟨by decide, by decide,
    ohlc_ingestion_idempotent w1DB "RELIANCE-EQ" 5 w1Items1 w1Items2 (by decide) (by decide)⟩

/-- C2.  `search_with_parallel_exchanges` returns the empty list (and leaves
the store untouched) for every query and every conceivable vendor response:
the worker it submits, `self._search_single_exchange`, is not defined
anywhere in the repository, so the attribute lookup raises `AttributeError`
inside the `try` block, and the enclosing handler returns `[]`. -/
theorem parallel_search_always_empty (connected : Bool) (db : DB) (query : String)
    (workerResults : String → List SearchItem) (disc : List SearchItem) :
    searchWithParallelExchanges connected db query workerResults disc = (db, []) := by
  cases connected with
  | false => rfl
  | true => rfl

/-- C6.  `setup_session` tolerates the three vendor response shapes and
normalizes them to one boolean connected outcome: a dict with `stat = 'Ok'`
connects, the bare boolean `True` connects, and a structured failure dict
(any `stat ≠ 'Ok'`, whatever its `emsg`), the bare `False`, `None`, or a
raised exception all leave `is_connected` false. -/
theorem setup_session_normalizes (userid : String) :
    (∀ emsg uid, (setupSession userid (.ok (.dictV (some "Ok") emsg uid))).1 = true) ∧
    ((setupSession userid (.ok (.boolV true))).1 = true) ∧
    (∀ stat emsg uid, stat ≠ some "Ok" →
      (setupSession userid (.ok (.dictV stat emsg uid))).1 = false) ∧
    ((setupSession userid (.ok (.boolV false))).1 = false) ∧
    ((setupSession userid (.ok .noneV)).1 = false) ∧
    ((setupSession userid (.error ())).1 = false) := by
  refine ⟨fun e u => rfl, rfl, ?_, rfl, rfl, rfl⟩
  intro stat e u h
  have hb : (stat == some "Ok") = false := by
    simpa [beq_eq_false_iff_ne] using h
  simp [setupSession, hb]

/-- Witness for C6 at a concrete failure dict. -/
theorem setup_session_normalizes_witness :
    (some "Session Expired" : Option String) ≠ some "Ok" ∧
    (setupSession "FZ00000"
      (.ok (.dictV (some "Session Expired") (some "Invalid token") none))).1 = false :=
  ⟨by decide,
    (setup_session_normalizes "FZ00000").2.2.1 (some "Session Expired")
      (some "Invalid token") none (by decide)⟩

/-- C10.  For every `days ≥ 1`, the start timestamp passed to the vendor is
`(days-1)` full days before today truncated to midnight: subtracting whole
days and then truncating equals truncating today and stepping back
`(days-1) * 86400` seconds, and `days = 1` yields today's midnight. -/
theorem ohlc_start_time_midnight (today : PyDateTime) (days : Int) (h : 1 ≤ days) :
    clientOhlcStartDate true today days = some ⟨today.dayNumber - (days - 1), 0⟩ ∧
    timestampOf (pyReplaceMidnight (pySubDays today (days - 1))) =
      timestampOf (midnightOf today) - (days - 1) * 86400 ∧
    (days = 1 → clientOhlcStartDate true today days = some (midnightOf today)) := by
  refine ⟨rfl, ?_, ?_⟩
  · simp only [timestampOf, pyReplaceMidnight, pySubDays, midnightOf]
    ring
  · intro h1
    subst h1
    simp [clientOhlcStartDate, pyReplaceMidnight, pySubDays, midnightOf]

/-- Witness for C10: `days = 1` on a concrete afternoon datetime starts at
that day's midnight. -/
theorem ohlc_start_time_midnight_witness :
    (1 : Int) ≤ 1 ∧
    (clientOhlcStartDate true ⟨20000, 37230⟩ 1 = some ⟨20000 - (1 - 1), 0⟩ ∧
     timestampOf (pyReplaceMidnight (pySubDays ⟨20000, 37230⟩ (1 - 1))) =
       timestampOf (midnightOf ⟨20000, 37230⟩) - (1 - 1) * 86400 ∧
     ((1 : Int) = 1 → clientOhlcStartDate true ⟨20000, 37230⟩ 1 =
       some (midnightOf ⟨20000, 37230⟩))) :=
  ⟨by decide, ohlc_start_time_midnight ⟨20000, 37230⟩ 1 (by decide)⟩

/-! ### Instrument-uniqueness lemmas -/

lemma not_mem_map_of_any_beq_false {α : Type} (g : α → String) (tok : String)
    (l : List α) (h : l.any (fun x => g x == tok) = false) : tok ∉ l.map g := by
  intro hm
  rw [List.mem_map] at hm
  obtain ⟨x, hx, hgx⟩ := hm
  have hT : l.any (fun x => g x == tok) = true := by
    rw [List.any_eq_true]
    exact ⟨x, hx, by simp [hgx]⟩
  rw [h] at hT
  cases hT

lemma not_mem_map_of_find?_beq_none {α : Type} (g : α → String) (s : String)
    (l : List α) (h : l.find? (fun x => g x == s) = none) : s ∉ l.map g := by
  intro hm
  rw [List.mem_map] at hm
  obtain ⟨x, hx, hgx⟩ := hm
  rw [List.find?_eq_none] at h
  exact h x hx (by simp [hgx])

lemma nodup_map_append_single {α β : Type} [DecidableEq β] (g : α → β) (l : List α)
    (a : α) (hnd : (l.map g).Nodup) (hnm : g a ∉ l.map g) :
    ((l ++ [a]).map g).Nodup := by
  rw [List.map_append, List.nodup_append]
  refine ⟨hnd, by simp, ?_⟩
  intro x hx hxa
  simp only [List.map_cons, List.map_nil, List.mem_cons, List.not_mem_nil, or_false] at hxa
  subst hxa
  exact hnm hx


/-! ### Session-record lemmas -/

lemma replaceFirst_map_userId (p : SessionRow → Bool) (f : SessionRow → SessionRow)
    (hf : ∀ s, (f s).userId = s.userId) :
    ∀ l : List SessionRow, (replaceFirst p f l).map (·.userId) = l.map (·.userId) := by
  intro l
  induction l with
  | nil => rfl
  | cons s rest ih =>
    simp only [replaceFirst]
    by_cases h : p s = true
    · simp [h, hf s]
    · simp [h, ih]

lemma replaceFirst_find? (p : SessionRow → Bool) (f : SessionRow → SessionRow)
    (hpf : ∀ s, p (f s) = p s) :
    ∀ (l : List SessionRow) (a : SessionRow), l.find? p = some a →
      (replaceFirst p f l).find? p = some (f a) := by
  intro l
  induction l with
  | nil => intro a h; simp [List.find?] at h
  | cons s rest ih =>
    intro a h
    by_cases hs : p s = true
    · rw [List.find?_cons_of_pos _ hs] at h
      injection h with h
      subst h
      simp only [replaceFirst, if_pos hs]
      exact List.find?_cons_of_pos _ (by rw [hpf]; exact hs)
    · rw [List.find?_cons_of_neg _ hs] at h
      simp only [replaceFirst, if_neg hs]
      rw [List.find?_cons_of_neg _ hs]
      exact ih a h

lemma find?_append_of_none {α : Type} (p : α → Bool) :
    ∀ (l l2 : List α), l.find? p = none → (l ++ l2).find? p = l2.find? p := by
  intro l l2 h
  induction l with
  | nil => rfl
  | cons s rest ih =>
    cases hs : p s with
    | true =>
      rw [List.find?_cons_of_pos _ hs] at h
      simp at h
    | false =>
      rw [List.find?_cons_of_neg _ (by simp [hs])] at h
      rw [List.cons_append, List.find?_cons_of_neg _ (by simp [hs])]
      exact ih h

/-- C7 counterexample: authenticate successfully at time 0 (8-hour expiry),
then fail authentication at time 40000 — past the 28800-second expiry.  The
session record is left exactly as it was: still marked active although
authentication failed and the expiry has passed; no code path ever sets
`is_active = False`. -/
theorem session_inactive_marking_counterexample :
    (setupClient (setupClient [] "FZ00000" "tokA" true 0).1 "FZ00000" "tokB" false 40000).1 =
      [⟨"FZ00000", "tokA", true, 28800⟩] ∧
    ((setupClient (setupClient [] "FZ00000" "tokA" true 0).1 "FZ00000" "tokB" false
        40000).1.any (fun s => s.isActive && decide (s.expiresAt < 40000))) = true := by
  constructor
  · rfl
  · rfl

/-- C7 amended.  For each user id there is at most one session record (the
unique `user_id` key is preserved by `setup_client`), and each successful
authentication creates or refreshes that record with the fresh token, the
active flag and an 8-hour expiry; but a failed authentication (or a passed
expiry) leaves the table completely untouched — records are never marked
inactive; expiry is only consulted on read via `is_expired`. -/
theorem session_record_invariant (sessions : List SessionRow) (u t : String) (now : Nat)
    (hnd : (sessions.map (·.userId)).Nodup) :
    ((((setupClient sessions u t true now).1).map (·.userId)).Nodup) ∧
    (∃ s, ((setupClient sessions u t true now).1).find? (fun r => r.userId == u) = some s ∧
      s.isActive = true ∧ s.token = t ∧ s.expiresAt = now + 8 * 3600) ∧
    (setupClient sessions u t false now = (sessions, false)) := by
  have hstep : setupClient sessions u t true now =
      (match sessions.find? (fun s => s.userId == u) with
        | some _ =>
          (replaceFirst (fun s => s.userId == u)
            (fun s => { s with token := t, isActive := true, expiresAt := now + 8 * 3600 })
            sessions, true)
        | none => (sessions ++ [⟨u, t, true, now + 8 * 3600⟩], true)) := rfl
  refine ⟨?_, ?_, rfl⟩
  · rw [hstep]
    cases hf : sessions.find? (fun s => s.userId == u) with
    | some s0 =>
      show ((replaceFirst (fun s => s.userId == u)
          (fun s => { s with token := t, isActive := true, expiresAt := now + 8 * 3600 })
          sessions).map (·.userId)).Nodup
      rw [replaceFirst_map_userId (fun s => s.userId == u)
        (fun s => { s with token := t, isActive := true, expiresAt := now + 8 * 3600 })
        (fun s => rfl) sessions]
      exact hnd
    | none =>
      show ((sessions ++ [SessionRow.mk u t true (now + 8 * 3600)]).map (·.userId)).Nodup
      exact nodup_map_append_single _ sessions (SessionRow.mk u t true (now + 8 * 3600)) hnd
        (not_mem_map_of_find?_beq_none _ u sessions hf)
  · rw [hstep]
    cases hf : sessions.find? (fun s => s.userId == u) with
    | some s0 =>
      refine ⟨{ s0 with token := t, isActive := true, expiresAt := now + 8 * 3600 },
        ?_, rfl, rfl, rfl⟩
      exact replaceFirst_find? (fun s => s.userId == u)
        (fun s => { s with token := t, isActive := true, expiresAt := now + 8 * 3600 })
        (fun s => rfl) sessions s0 hf
    | none =>
      refine ⟨SessionRow.mk u t true (now + 8 * 3600), ?_, rfl, rfl, rfl⟩
      show ((sessions ++ [SessionRow.mk u t true (now + 8 * 3600)]).find?
          (fun r => r.userId == u)) = some (SessionRow.mk u t true (now + 8 * 3600))
      rw [find?_append_of_none _ _ _ hf]
      exact List.find?_cons_of_pos _ (by simp)

/-- Witness for C7 (amended) on a concrete two-user table. -/
theorem session_record_invariant_witness :
    (([⟨"OTHER", "tk", true, 100⟩] : List SessionRow).map (·.userId)).Nodup ∧
    ((((setupClient [⟨"OTHER", "tk", true, 100⟩] "FZ00000" "tokA" true 50).1).map
        (·.userId)).Nodup ∧
     (∃ s, ((setupClient [⟨"OTHER", "tk", true, 100⟩] "FZ00000" "tokA" true 50).1).find?
          (fun r => r.userId == "FZ00000") = some s ∧
        s.isActive = true ∧ s.token = "tokA" ∧ s.expiresAt = 50 + 8 * 3600) ∧
     (setupClient [⟨"OTHER", "tk", true, 100⟩] "FZ00000" "tokA" false 50 =
       ([⟨"OTHER", "tk", true, 100⟩], false))) :=
  ⟨by decide,
    session_record_invariant [⟨"OTHER", "tk", true, 100⟩] "FZ00000" "tokA" 50 (by decide)⟩

/-- C8 counterexample: two successive `get_or_create_index` calls for the
same symbol `FOO` with different tokens `1` and `2` (keyed on
`(symbol, token)`, with only `token` unique in the schema) persist two Index
rows sharing one symbol with two different tokens — the symbol does not map
to exactly one vendor token. -/
theorem index_symbol_two_tokens_counterexample :
    ((getOrCreateIndex (getOrCreateIndex emptyDB "FOO" "1" none "EQUITY").1 "FOO" "2" none
        "EQUITY").1.indices.map (fun ix => (ix.symbol, ix.token))) =
      [("FOO", "1"), ("FOO", "2")] ∧
    ¬ (((getOrCreateIndex (getOrCreateIndex emptyDB "FOO" "1" none "EQUITY").1 "FOO" "2" none
        "EQUITY").1.indices.map (·.symbol)).Nodup) := by
  constructor
  · rfl
  · decide

/-- C8 amended.  The persistence operations preserve: stock symbols unique,
stock tokens unique, and index tokens unique — but Index symbols are not
unique: `get_or_create_index` is keyed on `(symbol, token)`, so one symbol
may map to several tokens (`get_index_by_symbol` even handles
`MultipleObjectsReturned`); only the Stock variant guarantees one token per
symbol. -/
theorem instrument_uniqueness_invariant (db : DB) (sym tok ex it : String)
    (sx nm : Option String)
    (hs : (db.stocks.map (·.symbol)).Nodup) (ht : (db.stocks.map (·.token)).Nodup)
    (hi : (db.indices.map (·.token)).Nodup) :
    (((getOrCreateStock db sym tok ex sx).1.stocks.map (·.symbol)).Nodup ∧
     ((getOrCreateStock db sym tok ex sx).1.stocks.map (·.token)).Nodup ∧
     ((getOrCreateStock db sym tok ex sx).1.indices.map (·.token)).Nodup) ∧
    (((getOrCreateIndex db sym tok nm it).1.stocks.map (·.symbol)).Nodup ∧
     ((getOrCreateIndex db sym tok nm it).1.stocks.map (·.token)).Nodup ∧
     ((getOrCreateIndex db sym tok nm it).1.indices.map (·.token)).Nodup) := by
  constructor
  · simp only [getOrCreateStock]
    split
    · exact ⟨hs, ht, hi⟩
    · split
      · exact ⟨hs, ht, hi⟩
      · split
        · exact ⟨hs, ht, hi⟩
        · next hfind hany =>
          refine ⟨?_, ?_, hi⟩
          · exact nodup_map_append_single _ _ _ hs
              (not_mem_map_of_find?_beq_none _ _ _ hfind)
          · exact nodup_map_append_single _ _ _ ht
              (not_mem_map_of_any_beq_false _ _ _ (by simpa using hany))
  · simp only [getOrCreateIndex]
    split
    · exact ⟨hs, ht, hi⟩
    · split
      · exact ⟨hs, ht, hi⟩
      · next hany =>
        refine ⟨hs, ht, ?_⟩
        exact nodup_map_append_single _ _ _ hi
          (not_mem_map_of_any_beq_false _ _ _ (by simpa using hany))

/-- Witness for C8 (amended) on a concrete one-row store. -/
theorem instrument_uniqueness_invariant_witness :
    ((DB.mk [⟨"TCS-EQ", "11536", "NSE", "Tcs"⟩] [] [] []).stocks.map (·.symbol)).Nodup ∧
    ((DB.mk [⟨"TCS-EQ", "11536", "NSE", "Tcs"⟩] [] [] []).stocks.map (·.token)).Nodup ∧
    ((DB.mk [⟨"TCS-EQ", "11536", "NSE", "Tcs"⟩] [] [] []).indices.map (·.token)).Nodup ∧
    ((((getOrCreateStock (DB.mk [⟨"TCS-EQ", "11536", "NSE", "Tcs"⟩] [] [] []) "INFY-EQ"
          "1594" "NSE" none).1.stocks.map (·.symbol)).Nodup ∧
      ((getOrCreateStock (DB.mk [⟨"TCS-EQ", "11536", "NSE", "Tcs"⟩] [] [] []) "INFY-EQ"
          "1594" "NSE" none).1.stocks.map (·.token)).Nodup ∧
      ((getOrCreateStock (DB.mk [⟨"TCS-EQ", "11536", "NSE", "Tcs"⟩] [] [] []) "INFY-EQ"
          "1594" "NSE" none).1.indices.map (·.token)).Nodup) ∧
     (((getOrCreateIndex (DB.mk [⟨"TCS-EQ", "11536", "NSE", "Tcs"⟩] [] [] []) "INFY-EQ"
          "1594" none "EQUITY").1.stocks.map (·.symbol)).Nodup ∧
      ((getOrCreateIndex (DB.mk [⟨"TCS-EQ", "11536", "NSE", "Tcs"⟩] [] [] []) "INFY-EQ"
          "1594" none "EQUITY").1.stocks.map (·.token)).Nodup ∧
      ((getOrCreateIndex (DB.mk [⟨"TCS-EQ", "11536", "NSE", "Tcs"⟩] [] [] []) "INFY-EQ"
          "1594" none "EQUITY").1.indices.map (·.token)).Nodup)) :=
  ⟨by decide, by decide, by decide,
    instrument_uniqueness_invariant (DB.mk [⟨"TCS-EQ", "11536", "NSE", "Tcs"⟩] [] [] [])
      "INFY-EQ" "1594" "NSE" "EQUITY" none none (by decide) (by decide) (by decide)⟩

/-! ### Blacklist-suffix lemmas -/

lemma getOrCreateIndex_stocks (db : DB) (sym tok : String) (nm : Option String)
    (it : String) : (getOrCreateIndex db sym tok nm it).1.stocks = db.stocks := by
  simp only [getOrCreateIndex]
  repeat' split
  all_goals rfl

lemma getOrCreateStock_stocks_cases (db : DB) (sym tok ex : String) (sx : Option String) :
    (getOrCreateStock db sym tok ex sx).1.stocks = db.stocks ∨
    (strEndsWith sym "-BL" = false ∧
      ∃ row : StockRow, row.symbol = sym ∧
        (getOrCreateStock db sym tok ex sx).1.stocks = db.stocks ++ [row]) := by
  simp only [getOrCreateStock]
  split
  · exact Or.inl rfl
  next hbl =>
    split
    · exact Or.inl rfl
    · split
      · exact Or.inl rfl
      · exact Or.inr ⟨by simpa using hbl, _, rfl, rfl⟩

lemma getOrCreateStock_stocks_prop (db : DB) (sym tok ex : String) (sx : Option String) :
    ∀ st ∈ (getOrCreateStock db sym tok ex sx).1.stocks,
      st ∈ db.stocks ∨ strEndsWith st.symbol "-BL" = false := by
  intro st hst
  rcases getOrCreateStock_stocks_cases db sym tok ex sx with h | ⟨hbl, row, hrow, h⟩
  · rw [h] at hst
    exact Or.inl hst
  · rw [h] at hst
    rcases List.mem_append.mp hst with h1 | h1
    · exact Or.inl h1
    · simp only [List.mem_singleton] at h1
      subst h1
      rw [hrow]
      exact Or.inr hbl

lemma staticStep_stocks (query : String) (acc : DB × List Inst)
    (entry : String × MajorIndexInfo) :
    (staticStep query acc entry).1.stocks = acc.1.stocks := by
  simp only [staticStep]
  split
  · split
    next db2 ix heq =>
      have h := getOrCreateIndex_stocks acc.1 entry.1 entry.2.token (some entry.2.name)
        "EQUITY"
      rw [heq] at h
      exact h
    next db2 heq =>
      have h := getOrCreateIndex_stocks acc.1 entry.1 entry.2.token (some entry.2.name)
        "EQUITY"
      rw [heq] at h
      exact h
  · rfl

lemma foldl_staticStep_stocks (query : String) :
    ∀ (entries : List (String × MajorIndexInfo)) (acc : DB × List Inst),
      ((entries.foldl (staticStep query) acc).1).stocks = acc.1.stocks := by
  intro entries
  induction entries with
  | nil => intro acc; rfl
  | cons e rest ih =>
    intro acc
    rw [List.foldl_cons, ih (staticStep query acc e), staticStep_stocks]

lemma processSearchItem_stocks_prop (acc : DB × List Inst) (item : SearchItem) :
    ∀ st ∈ (processSearchItem acc item).1.stocks,
      st ∈ acc.1.stocks ∨ strEndsWith st.symbol "-BL" = false := by
  intro st hst
  simp only [processSearchItem] at hst
  split at hst
  · split at hst
    · exact Or.inl hst
    · split at hst
      · split at hst
        next db2 ix heq =>
          have h := getOrCreateIndex_stocks acc.1 (item.tsym.getD "") (item.token.getD "")
            (some (item.cname.getD (item.tsym.getD ""))) "EQUITY"
          rw [heq] at h
          rw [h] at hst
          exact Or.inl hst
        next db2 heq =>
          have h := getOrCreateIndex_stocks acc.1 (item.tsym.getD "") (item.token.getD "")
            (some (item.cname.getD (item.tsym.getD ""))) "EQUITY"
          rw [heq] at h
          rw [h] at hst
          exact Or.inl hst
      · split at hst
        next db2 st2 heq =>
          have h := getOrCreateStock_stocks_prop acc.1 (item.tsym.getD "")
            (item.token.getD "") "NSE" (some (item.searchExchange.getD "NSE"))
          rw [heq] at h
          exact h st hst
        next db2 heq =>
          have h := getOrCreateStock_stocks_prop acc.1 (item.tsym.getD "")
            (item.token.getD "") "NSE" (some (item.searchExchange.getD "NSE"))
          rw [heq] at h
          exact h st hst
  · exact Or.inl hst

lemma foldl_process_stocks_prop :
    ∀ (values : List SearchItem) (acc : DB × List Inst),
      ∀ st ∈ (values.foldl processSearchItem acc).1.stocks,
        st ∈ acc.1.stocks ∨ strEndsWith st.symbol "-BL" = false := by
  intro values
  induction values with
  | nil => intro acc st hst; exact Or.inl hst
  | cons item rest ih =>
    intro acc st hst
    rw [List.foldl_cons] at hst
    rcases ih (processSearchItem acc item) st hst with h | h
    · exact processSearchItem_stocks_prop acc item st h
    · exact Or.inr h

lemma searchStocksService_stocks_prop (connected : Bool) (db : DB) (query : String)
    (live : LiveSearchOutcome) :
    ∀ st ∈ (searchStocksService connected db query live).1.stocks,
      st ∈ db.stocks ∨ strEndsWith st.symbol "-BL" = false := by
  have hss : (staticMatches db query).1.stocks = db.stocks :=
    foldl_staticStep_stocks query MAJOR_INDICES (db, [])
  intro st hst
  simp only [searchStocksService] at hst
  split at hst
  · exact Or.inl hst
  · split at hst
    · rw [hss] at hst
      exact Or.inl hst
    · split at hst
      · split at hst
        · rcases foldl_process_stocks_prop _ (staticMatches db query) st hst with h | h
          · rw [hss] at h
            exact Or.inl h
          · exact Or.inr h
        · rw [hss] at hst
          exact Or.inl hst
      · rw [hss] at hst
        exact Or.inl hst

/-- C3 counterexample: a vendor item with symbol `NIFTYTEST-BL` (ending in
the blacklist suffix) and index classification (`instname = 'UNDIND'`) IS
persisted as an `Index` row by `search_stocks` — `get_or_create_index` has no
blacklist check, so "never persisted, regardless of classification branch"
is false. -/
theorem blacklist_persisted_as_index_counterexample :
    ((searchStocksService true emptyDB "xyz"
        (.returned (some ⟨some "Ok",
          [⟨some "NIFTYTEST-BL", some "777", some "NSE", some "UNDIND", none⟩],
          none⟩))).1.indices.map (fun ix => ix.symbol)) = ["NIFTYTEST-BL"] ∧
    strEndsWith "NIFTYTEST-BL" "-BL" = true := by
  constructor
  · rfl
  · decide

/-- C3 amended.  A vendor result whose symbol ends in `-BL` is never
persisted as a Stock — `get_or_create_stock` skips it before touching the
store, so a search never adds a blacklisted Stock row — but the index
classification branch has no such guard and does persist such symbols as
Index rows. -/
theorem blacklist_never_persisted_as_stock (db : DB) (sym tok ex query : String)
    (sx : Option String) (connected : Bool) (live : LiveSearchOutcome)
    (hbl : strEndsWith sym "-BL" = true) :
    getOrCreateStock db sym tok ex sx = (db, none) ∧
    (∀ st ∈ (searchStocksService connected db query live).1.stocks,
      st ∈ db.stocks ∨ strEndsWith st.symbol "-BL" = false) := by
  constructor
  · simp [getOrCreateStock, hbl]
  · exact searchStocksService_stocks_prop connected db query live

/-- Witness for C3 (amended) at a concrete blacklisted symbol. -/
theorem blacklist_never_persisted_as_stock_witness :
    strEndsWith "RELPOWER-BL" "-BL" = true ∧
    (getOrCreateStock emptyDB "RELPOWER-BL" "555" "NSE" none = (emptyDB, none) ∧
     (∀ st ∈ (searchStocksService true emptyDB "rel" .raised).1.stocks,
        st ∈ emptyDB.stocks ∨ strEndsWith st.symbol "-BL" = false)) :=
  ⟨by decide,
    blacklist_never_persisted_as_stock emptyDB "RELPOWER-BL" "555" "NSE" "rel" none true
      .raised (by decide)⟩

/-! ### Result-list accumulation lemmas -/

lemma processSearchItem_snd_append (acc : DB × List Inst) (item : SearchItem) :
    ∃ d, (processSearchItem acc item).2 = acc.2 ++ d := by
  simp only [processSearchItem]
  split
  · split
    · exact ⟨[], (List.append_nil _).symm⟩
    · split
      · split
        · exact ⟨_, rfl⟩
        · exact ⟨[], (List.append_nil _).symm⟩
      · split
        · exact ⟨_, rfl⟩
        · exact ⟨[], (List.append_nil _).symm⟩
  · exact ⟨[], (List.append_nil _).symm⟩

lemma foldl_process_snd_prefix :
    ∀ (values : List SearchItem) (acc : DB × List Inst),
      ∃ rest, (values.foldl processSearchItem acc).2 = acc.2 ++ rest := by
  intro values
  induction values with
  | nil => intro acc; exact ⟨[], (List.append_nil _).symm⟩
  | cons item vrest ih =>
    intro acc
    rw [List.foldl_cons]
    obtain ⟨r2, hr2⟩ := ih (processSearchItem acc item)
    obtain ⟨d, hd⟩ := processSearchItem_snd_append acc item
    exact ⟨d ++ r2, by rw [hr2, hd, List.append_assoc]⟩

/-- C4 counterexample: searching `"nifty"` when the live vendor call fails —
raising, or returning a non-Ok response — does NOT return the static-table
entries: a raised call is caught and returns the empty list, and a non-Ok
response falls off the end of the `try` block, returning `None`.  The
step-1 matches are persisted but dropped from the return value. -/
theorem nifty_static_lost_counterexample :
    (searchStocksService true emptyDB "nifty" .raised).2 = some [] ∧
    (searchStocksService true emptyDB "nifty"
      (.returned (some ⟨some "Not_Ok", [], some "No results found for nifty"⟩))).2 =
      none := by
  constructor
  · rfl
  · rfl

/-- C4 amended.  The static-table matches survive into the returned list only
when the live search returns an `Ok` response: a raised live call yields `[]`,
a non-Ok or `None` response yields no list at all (`None`); on an `Ok`
response the result starts with the static matches — for `"nifty"` all 10
static entries — followed by the converted live items. -/
theorem nifty_static_only_on_ok_response :
    (∀ (db : DB) (query : String),
      (searchStocksService true db query .raised).2 = some []) ∧
    (∀ (db : DB) (query : String) (r : SearchResp), (r.stat == some "Ok") = false →
      (searchStocksService true db query (.returned (some r))).2 = none) ∧
    (∀ (db : DB) (query : String),
      (searchStocksService true db query (.returned none)).2 = none) ∧
    (∀ values : List SearchItem, ∃ rest,
      (searchStocksService true emptyDB "nifty"
        (.returned (some ⟨some "Ok", values, none⟩))).2 =
      some ((staticMatches emptyDB "nifty").2 ++ rest)) ∧
    ((staticMatches emptyDB "nifty").2.length = 10) := by
  refine ⟨fun db q => rfl, ?_, fun db q => rfl, ?_, by decide⟩
  · intro db q r h
    simp [searchStocksService, h]
  · intro values
    obtain ⟨rest, hrest⟩ := foldl_process_snd_prefix values (staticMatches emptyDB "nifty")
    refine ⟨rest, ?_⟩
    show some ((values.foldl processSearchItem (staticMatches emptyDB "nifty")).2) =
      some ((staticMatches emptyDB "nifty").2 ++ rest)
    rw [hrest]

/-- Witness for C4 (amended) at a concrete non-Ok response. -/
theorem nifty_static_only_on_ok_response_witness :
    ((SearchResp.mk (some "Not_Ok") [] (some "No results")).stat == some "Ok") = false ∧
    (searchStocksService true emptyDB "tcs"
      (.returned (some (SearchResp.mk (some "Not_Ok") [] (some "No results"))))).2 =
      none :=
  ⟨by decide,
    nifty_static_only_on_ok_response.2.1 emptyDB "tcs"
      (SearchResp.mk (some "Not_Ok") [] (some "No results")) (by decide)⟩

/-- C5 counterexample: for the query `"nifty"` (static matches include
`NIFTY` with token `26000`), a vendor response carrying an item with that
very token plus a second `NIFTY` item with a different token `999` makes
`search_stocks` return token `26000` twice, not exactly once: the dedup
check compares the raw item token (`999` passes it), and
`get_or_create_index` then remaps the major symbol `NIFTY` back to the
hardcoded token `26000`, re-appending the already-collected static row. -/
theorem static_token_returned_twice_counterexample :
    ((searchStocksService true emptyDB "nifty"
        (.returned (some ⟨some "Ok",
          [⟨some "NIFTY", some "26000", some "NSE", some "UNDIND", none⟩,
           ⟨some "NIFTY", some "999", some "NSE", some "UNDIND", none⟩], none⟩))).2.map
      (fun l => (l.filter (fun r => instToken r == "26000")).length)) = some 2 := by
  rfl

/-- C5 amended.  The dedup in `search_stocks` drops a vendor item exactly
when the item's own token already appears among the collected results, so an
item carrying a static match's token never re-adds it, and for `"nifty"` the
result starts with the 10 static entries bearing the static table's names,
tokens and `NSE` exchange (pairwise-distinct tokens).  The guarantee is
token-based only — an item with a major-index symbol but a different token is
remapped to the static token and duplicates the entry (see the
counterexample) — and the parallel variant returns no results at all. -/
theorem token_dedup_and_static_precedence :
    (∀ (acc : DB × List Inst) (item : SearchItem),
      (acc.2.any (fun r => instToken r == item.token.getD "")) = true →
      processSearchItem acc item = acc) ∧
    ((staticMatches emptyDB "nifty").2 =
      [.indexI ⟨"NIFTY_BANK", "26009", "Nifty Bank", "NSE", "EQUITY", true⟩,
       .indexI ⟨"NIFTY", "26000", "Nifty 50", "NSE", "EQUITY", true⟩,
       .indexI ⟨"NIFTY_NEXT_50", "26013", "Nifty Next 50", "NSE", "EQUITY", true⟩,
       .indexI ⟨"NIFTY_IT", "26008", "Nifty IT", "NSE", "EQUITY", true⟩,
       .indexI ⟨"NIFTY_AUTO", "26029", "Nifty Auto", "NSE", "EQUITY", true⟩,
       .indexI ⟨"NIFTY_FMCG", "26021", "Nifty FMCG", "NSE", "EQUITY", true⟩,
       .indexI ⟨"NIFTY_PHARMA", "26023", "Nifty Pharma", "NSE", "EQUITY", true⟩,
       .indexI ⟨"NIFTY_REALTY", "26018", "Nifty Realty", "NSE", "EQUITY", true⟩,
       .indexI ⟨"NIFTY_500", "26004", "Nifty 500", "NSE", "EQUITY", true⟩,
       .indexI ⟨"NIFTY_100", "26012", "Nifty 100", "NSE", "EQUITY", true⟩]) ∧
    (((staticMatches emptyDB "nifty").2.map instToken).Nodup) ∧
    (∀ (connected : Bool) (db : DB) (query : String)
      (wr : String → List SearchItem) (disc : List SearchItem),
      (searchWithParallelExchanges connected db query wr disc).2 = []) := by
  refine ⟨?_, by decide, by decide, ?_⟩
  · intro acc item h
    simp only [processSearchItem]
    split <;> simp_all
  · intro c db q wr d
    cases c with
    | false => rfl
    | true => rfl

/-- Witness for C5 (amended): an item whose token `26000` is already among
the results is dropped. -/
theorem token_dedup_and_static_precedence_witness :
    (([Inst.indexI ⟨"NIFTY", "26000", "Nifty 50", "NSE", "EQUITY", true⟩].any
        (fun r => instToken r ==
          (SearchItem.mk (some "NIFTY 50") (some "26000") (some "NSE") (some "UNDIND")
            none).token.getD "")) = true) ∧
    processSearchItem
        (emptyDB, [Inst.indexI ⟨"NIFTY", "26000", "Nifty 50", "NSE", "EQUITY", true⟩])
        (SearchItem.mk (some "NIFTY 50") (some "26000") (some "NSE") (some "UNDIND")
          none) =
      (emptyDB, [Inst.indexI ⟨"NIFTY", "26000", "Nifty 50", "NSE", "EQUITY", true⟩]) :=
  ⟨by decide,
    token_dedup_and_static_precedence.1
      (emptyDB, [Inst.indexI ⟨"NIFTY", "26000", "Nifty 50", "NSE", "EQUITY", true⟩])
      (SearchItem.mk (some "NIFTY 50") (some "26000") (some "NSE") (some "UNDIND") none)
      (by decide)⟩

/-- C9 counterexample: for the query `"nifty"` with all five exchange calls
failing but one major-index quote probe succeeding, the combined result set
is the one discovered index entry, while the union of the successful
exchanges' result sets is empty — so "combined equals the union of the
successful exchanges" is false as stated; the discovery step adds entries
beyond that union. -/
theorem fanout_discovery_counterexample :
    respValues (clientSearchStock true "nifty" (fun _ => .raised)
        (fun t => t == "26000")) =
      [⟨some "NIFTY", some "26000", some "NSE", some "INDEX", some "NIFTY Index"⟩] ∧
    gatherExchanges (fun _ => .raised) ["NSE", "BSE", "NFO", "CDS", "MCX"] = [] := by
  constructor
  · rfl
  · rfl

/-- C9 amended.  Failures are isolated and the fan-out result is exactly the
union (in exchange order) of the successful exchanges' tagged result sets —
a raised, `None`, non-Ok or empty-`values` exchange contributes nothing and
does not disturb the others — plus, when the lower-cased query contains
`'nifty'`, the discovered major-index entries. -/
theorem fanout_union_with_discovery (query : String) (outcomes : String → ExchOutcome)
    (quoteOk : String → Bool) :
    respValues (clientSearchStock true query outcomes quoteOk) =
      exchangeContribution "NSE" (outcomes "NSE") ++
      exchangeContribution "BSE" (outcomes "BSE") ++
      exchangeContribution "NFO" (outcomes "NFO") ++
      exchangeContribution "CDS" (outcomes "CDS") ++
      exchangeContribution "MCX" (outcomes "MCX") ++
      (if strContains (pyLower query) "nifty" = true then discoverMajor quoteOk
       else []) := by
  have hg : gatherExchanges outcomes ["NSE", "BSE", "NFO", "CDS", "MCX"] =
      exchangeContribution "NSE" (outcomes "NSE") ++
      (exchangeContribution "BSE" (outcomes "BSE") ++
      (exchangeContribution "NFO" (outcomes "NFO") ++
      (exchangeContribution "CDS" (outcomes "CDS") ++
      (exchangeContribution "MCX" (outcomes "MCX") ++ [])))) := rfl
  by_cases hn : strContains (pyLower query) "nifty" = true
  · simp only [clientSearchStock, hn, if_true, Bool.not_true, Bool.false_eq_true, if_false]
    cases hL : gatherExchanges outcomes ["NSE", "BSE", "NFO", "CDS", "MCX"] ++
        discoverMajor quoteOk with
    | nil =>
      rcases List.append_eq_nil.mp hL with ⟨h1, h2⟩
      rw [hg] at h1
      simp only [List.append_nil, List.append_eq_nil] at h1
      obtain ⟨e1, e2, e3, e4, e5⟩ := h1
      simp [respValues, e1, e2, e3, e4, e5, h2]
    | cons x xs =>
      show x :: xs = _
      rw [← hL, hg]
      simp [List.append_assoc]
  · simp only [clientSearchStock, hn, if_false, Bool.not_true, Bool.false_eq_true]
    cases hL : gatherExchanges outcomes ["NSE", "BSE", "NFO", "CDS", "MCX"] with
    | nil =>
      rw [hg] at hL
      simp only [List.append_nil, List.append_eq_nil] at hL
      obtain ⟨e1, e2, e3, e4, e5⟩ := hL
      simp [respValues, e1, e2, e3, e4, e5]
    | cons x xs =>
      show x :: xs = _
      rw [← hL, hg]
      simp [List.append_assoc]
